import Mathlib

/-!
Shallow embedding of `pkg/experiment/querybackend/query_tree.go` (the tree
Local Query Executor `queryTree` and the report aggregator `treeAggregator`),
together with spec-level models of the external collaborators the file uses:
the profile entry / repeated-row iterators, `v1.SampleColumns.Resolve`, the
symbol resolver (`symdb`), the tree merger (`model.TreeMerger`) and
`runutil.CloseWithErrCapture`.  Machine integers are modelled as `Nat` (no
overflow is relevant to these claims); Go `nil` pointers are `Option.none`;
fallible calls return `Except`/`Option`.
-/

namespace QueryBackend

/-- Serialized tree payload (`[]byte` in Go), abstracted to a list of numbers. -/
abbrev Bytes := List Nat

/-- A weighted sample of the call tree: (stack-trace identity, value). -/
abbrev Sample := Nat × Nat

/-- Go error values, modelled as a list of error atoms so that a multi-error
combining two errors can hold both. -/
abbrev Err := List Nat

/-- `querybackendv1.TreeQuery`: parameters of a tree query.  `maxNodes` is the
serialization bound; `labelSelector` stands in for the remaining opaque fields
(they are only carried around, never interpreted, by the code under study). -/
structure TreeQuery where
  maxNodes : Nat
  labelSelector : List Nat
deriving DecidableEq, Repr

/-- `querybackendv1.TreeReport`: the tree-kind payload of a Report.  The Go
field `Query` is a pointer and may be nil, hence `Option`. -/
structure TreeReport where
  query : Option TreeQuery
  tree : Bytes
deriving DecidableEq, Repr

/-- `querybackendv1.Report`: only the `Tree` field is relevant to the tree
query; `none` models a Report of a different kind (nil `Tree` pointer). -/
structure Report where
  tree : Option TreeReport
deriving DecidableEq, Repr

/-- `querybackendv1.Query` as consumed by `queryTree` (its `Tree` pointer may
be nil). -/
structure Query where
  tree : Option TreeQuery
deriving DecidableEq, Repr

/-- `querybackendv1.InvokeRequest`: invocation parameters.  Opaque to the code
under study (`newTreeAggregator` discards it), modelled as an opaque payload. -/
structure InvokeRequest where
  options : List Nat
deriving DecidableEq, Repr

/-- The generated getter `GetMaxNodes`: nil-safe, returning 0 on nil. -/
def getMaxNodes : Option TreeQuery → Nat
  | none => 0
  | some t => t.maxNodes

/-- Injective sort key on samples (Cantor pairing), used to give the modelled
serialization a deterministic canonical order. -/
def sampleKey (s : Sample) : Nat := Nat.pair s.1 s.2

/-- The canonical order on samples induced by `sampleKey`. -/
def sampleLE (x y : Sample) : Prop := sampleKey x ≤ sampleKey y

instance : DecidableRel sampleLE :=
  fun x y => inferInstanceAs (Decidable (sampleKey x ≤ sampleKey y))

instance : IsTotal Sample sampleLE := ⟨fun x y => Nat.le_total (sampleKey x) (sampleKey y)⟩

instance : IsTrans Sample sampleLE :=
  ⟨fun _ _ _ h₁ h₂ => Nat.le_trans h₁ h₂⟩

instance : IsAntisymm Sample sampleLE := by
  constructor
  intro x y h₁ h₂
  have hk : sampleKey x = sampleKey y := Nat.le_antisymm h₁ h₂
  have hxy := Nat.pair_eq_pair.mp hk
  exact Prod.ext hxy.1 hxy.2

/-- Modelled from the spec: the deterministic canonical ordering the tree
serialization uses (the concrete node order of `model.Tree`/`symdb` trees lives
outside `src/`; the spec only requires a deterministic policy). -/
def sortSamples (l : List Sample) : List Sample := List.insertionSort sampleLE l

/-- Modelled from the spec: `Tree.serialize(maxNodes) -> bytes` — serialize the
tree in canonical order, truncated to at most `maxNodes` nodes (0 = no bound).
Implements both `model.Tree.Bytes` and the symbol-resolver tree's `Bytes`,
which are outside `src/`. -/
def treeBytes (samples : List Sample) (maxNodes : Nat) : Bytes :=
  ((if maxNodes = 0 then sortSamples samples
    else (sortSamples samples).take maxNodes).map (fun s => [s.1, s.2])).flatten

/-- Modelled from the spec: parsing a serialized tree back into its samples;
fails (`none`) on a malformed payload, e.g. one of odd length. -/
def decodeTree : Bytes → Option (List Sample)
  | [] => some []
  | [_] => none
  | a :: b :: rest => (decodeTree rest).map (fun l => (a, b) :: l)

/-! ## The tree aggregator (`treeAggregator` in query_tree.go) -/

/-- State of a `treeAggregator`: the `sync.Once` gate (`initDone`), the
captured query (`a.query`, a nil pointer before initialization and possibly a
clone of a nil pointer afterwards), and the merger.  `tree = none` models the
nil `*model.TreeMerger` before the once-gate has run. -/
structure treeAggregatorSt where
  initDone : Bool
  query : Option TreeQuery
  tree : Option (List Sample)
deriving DecidableEq, Repr

/-- `newTreeAggregator`: `new(treeAggregator)` — the zero value; the
`InvokeRequest` argument is discarded. -/
def newTreeAggregator (_ : InvokeRequest) : treeAggregatorSt :=
  { initDone := false, query := none, tree := none }

/-- Opaque error value returned by a failed merge. -/
abbrev MergeErr := Nat

/-- Modelled from the spec: `model.TreeMerger.MergeTreeBytes` (outside `src/`)
— parse the payload; on failure return an error and leave the merger unchanged,
otherwise merge the parsed samples into the accumulator. -/
def mergeTreeBytes (m : List Sample) (b : Bytes) : Option MergeErr × List Sample :=
  match decodeTree b with
  | none => (some 0, m)
  | some l => (none, m ++ l)

/-- `treeAggregator.aggregate`.  Returns `none` when the Go code panics: with a
Report carrying no tree payload, `r` is nil and the field selections `r.Query`
(inside the once-gate body) and `r.Tree` dereference a nil pointer.  Otherwise
`some (merge error?, updated state)`.  The once-gate body sets the merger to a
fresh `model.TreeMerger` and captures `r.Query.CloneVT()` (clone = value copy). -/
def aggregate (a : treeAggregatorSt) (report : Report) :
    Option (Option MergeErr × treeAggregatorSt) :=
  match report.tree with
  | none => none
  | some r =>
    let a1 := if a.initDone then a
      else { initDone := true, query := r.query, tree := some [] }
    match a1.tree with
    | none => none
    | some m =>
      let res := mergeTreeBytes m r.tree
      some (res.1, { a1 with tree := some res.2 })

/-- `treeAggregator.build`.  Returns `none` when the merger was never
initialized (no `aggregate` call ran the once-gate): the source then invokes
`Tree()` on the nil `*model.TreeMerger` field, and `model.TreeMerger` lives
outside `src/`, so that call is outside the modelled merger interface. -/
def build (a : treeAggregatorSt) : Option Report :=
  match a.tree with
  | none => none
  | some m =>
    some { tree := some { query := a.query, tree := treeBytes m (getMaxNodes a.query) } }

/-- Feed a sequence of Reports into the aggregator, one `aggregate` call per
Report, threading the state; `none` if some call panicked (panics propagate). -/
def aggregateList (a : treeAggregatorSt) : List Report → Option treeAggregatorSt
  | [] => some a
  | r :: rest =>
    match aggregate a r with
    | none => none
    | some (_, a1) => aggregateList a1 rest

/-- The serialized tree produced by feeding `l` into a fresh aggregator and
calling `build()`. -/
def buildTreeBytes (req : InvokeRequest) (l : List Report) : Option Bytes :=
  (aggregateList (newTreeAggregator req) l).bind fun s =>
    (build s).bind fun r => r.tree.map TreeReport.tree

/-- The max-node count carried by a Report's tree payload, when it has one. -/
def reportMaxNodes (r : Report) : Option Nat :=
  r.tree.map fun t => getMaxNodes t.query

/-- The samples a single Report contributes to the accumulated merger: the
decoded payload on a successful merge, nothing on a failed parse. -/
def treeContribution (r : Report) : List Sample :=
  match r.tree with
  | none => []
  | some t => (decodeTree t.tree).getD []

/-- The accumulated merger contents after feeding `l`. -/
def mergedSamples (l : List Report) : List Sample := l.flatMap treeContribution

/-! ## The tree Local Query Executor (`queryTree` in query_tree.go) -/

/-- A repeated profile row as delivered by the repeated-row iterator: the row's
partition and the two repeated column value slices (stacktrace ids, values)
handed to `Resolver.AddSamplesFromParquetRow`. -/
structure ProfileRow where
  partition : Nat
  stacktraces : List Nat
  values : List Nat
deriving DecidableEq, Repr

/-- Per-(query, block) context: the behaviors of the external collaborators
`queryTree` drives, all outside `src/`, modelled as data: the outcome of
`profileEntryIterator`, the entry iterator's close error, the outcome of
`v1.SampleColumns.Resolve` (the two column indices), the rows yielded by the
repeated-row iterator together with its terminal error (`profiles.Err()`) and
close error, and the symbol resolver's materialization `Resolver.Tree()` as a
function of the rows it was fed. -/
structure queryContext where
  entriesInit : Option Err
  entriesCloseErr : Option Err
  columnsResolve : Except Err (Nat × Nat)
  rows : List ProfileRow
  rowsErr : Option Err
  profilesCloseErr : Option Err
  resolveTree : List ProfileRow → Except Err (List Sample)

/-- Modelled from the spec and dskit: `runutil.CloseWithErrCapture(&err, c, …)`
— fold a close error into the captured error variable; when both the captured
error and the close error are present, the result reports both. -/
def closeWithErrCapture (err closeErr : Option Err) : Option Err :=
  match err, closeErr with
  | none, none => none
  | some e, none => some e
  | none, some c => some c
  | some e, some c => some (e ++ c)

/-- Observable outcome of one `queryTree` run: the two (unnamed) return values,
the final value of the local `err` variable after all deferred
`CloseWithErrCapture` calls mutated it (the result parameters of `queryTree`
are unnamed, so this final value is never returned), and which releases ran. -/
structure ExecLog where
  retVal : Option Report
  retErr : Option Err
  localErrFinal : Option Err
  entriesClosed : Bool
  profilesClosed : Bool
  resolverReleased : Nat
deriving DecidableEq, Repr

/-- `queryTree`, the tree Local Query Executor, including its deferred calls.
Paths, in source order: `profileEntryIterator` failure; `columns.Resolve`
failure (entry iterator already deferred-closed); the row loop followed by the
`profiles.Err()` check; `resolver.Tree()` failure; success.  From the third
path on, the deferred stack is: release resolver, close profile stream
(capturing into the local `err`), close entry iterator (likewise); the `return`
statement has already fixed the returned values when the defers run. -/
def queryTreeRun (q : queryContext) (query : Query) : ExecLog :=
  match q.entriesInit with
  | some e =>
    { retVal := none, retErr := some e, localErrFinal := some e,
      entriesClosed := false, profilesClosed := false, resolverReleased := 0 }
  | none =>
    match q.columnsResolve with
    | .error e =>
      { retVal := none, retErr := some e,
        localErrFinal := closeWithErrCapture (some e) q.entriesCloseErr,
        entriesClosed := true, profilesClosed := false, resolverReleased := 0 }
    | .ok _ =>
      match q.rowsErr with
      | some e =>
        { retVal := none, retErr := some e,
          localErrFinal :=
            closeWithErrCapture (closeWithErrCapture (some e) q.profilesCloseErr)
              q.entriesCloseErr,
          entriesClosed := true, profilesClosed := true, resolverReleased := 1 }
      | none =>
        match q.resolveTree q.rows with
        | .error e =>
          { retVal := none, retErr := some e,
            localErrFinal :=
              closeWithErrCapture (closeWithErrCapture (some e) q.profilesCloseErr)
                q.entriesCloseErr,
            entriesClosed := true, profilesClosed := true, resolverReleased := 1 }
        | .ok samples =>
          let tr : TreeReport :=
            { query := query.tree, tree := treeBytes samples (getMaxNodes query.tree) }
          { retVal := some { tree := some tr },
            retErr := none,
            localErrFinal :=
              closeWithErrCapture (closeWithErrCapture none q.profilesCloseErr)
                q.entriesCloseErr,
            entriesClosed := true, profilesClosed := true, resolverReleased := 1 }

/-- A world: the immutable block behind the query context, plus cumulative
counters of the external release effects performed so far.  Running the
executor is the only mutation, and it only bumps the counters. -/
structure World where
  ctx : queryContext
  resolversReleased : Nat
  iteratorsClosed : Nat

/-- Run `queryTree` against a world: produce the run's log and the world
afterwards — the block context is untouched, only the release counters grow. -/
def queryTreeW (w : World) (query : Query) : ExecLog × World :=
  let log := queryTreeRun w.ctx query
  (log,
    { ctx := w.ctx,
      resolversReleased := w.resolversReleased + log.resolverReleased,
      iteratorsClosed := w.iteratorsClosed +
        (cond log.entriesClosed 1 0) + (cond log.profilesClosed 1 0) })

/-! ## Concrete inputs used by witnesses and counterexamples -/

/-- A tree Report requesting at most 3 nodes, carrying two samples. -/
def reportA : Report :=
  { tree := some { query := some { maxNodes := 3, labelSelector := [] }, tree := [1, 1, 2, 2] } }

/-- A tree Report requesting at most 3 nodes, carrying one sample. -/
def reportB : Report :=
  { tree := some { query := some { maxNodes := 3, labelSelector := [] }, tree := [5, 5] } }

/-- A tree Report whose query differs (max 9 nodes), carrying one sample. -/
def reportOther : Report :=
  { tree := some { query := some { maxNodes := 9, labelSelector := [] }, tree := [5, 5] } }

/-- A tree Report capping the serialization at a single node. -/
def reportCap1 : Report :=
  { tree := some { query := some { maxNodes := 1, labelSelector := [] }, tree := [1, 1, 2, 2] } }

/-- A tree Report with no node cap (0 = unbounded). -/
def reportNoCap : Report :=
  { tree := some { query := some { maxNodes := 0, labelSelector := [] }, tree := [3, 3, 4, 4] } }

/-- The aggregator state reached by feeding `reportA` then `reportOther`. -/
def stateAB : treeAggregatorSt :=
  { initDone := true, query := some { maxNodes := 3, labelSelector := [] },
    tree := some [(1, 1), (2, 2), (5, 5)] }

/-- A block context whose row iterator ends with terminal error `[5]`. -/
def qcIterErr : queryContext :=
  { entriesInit := none, entriesCloseErr := none, columnsResolve := .ok (0, 1),
    rows := [], rowsErr := some [5], profilesCloseErr := none,
    resolveTree := fun _ => .ok [] }

/-- A block context on which every step succeeds, resolving one sample. -/
def qcOk : queryContext :=
  { entriesInit := none, entriesCloseErr := none, columnsResolve := .ok (0, 1),
    rows := [], rowsErr := none, profilesCloseErr := none,
    resolveTree := fun _ => .ok [(1, 2)] }

/-- A block context on which the query succeeds but closing the profile entry
iterator fails with error `[9]`. -/
def qcCloseFail : queryContext :=
  { entriesInit := none, entriesCloseErr := some [9], columnsResolve := .ok (0, 1),
    rows := [], rowsErr := none, profilesCloseErr := none,
    resolveTree := fun _ => .ok [] }

/-! ## Helper lemmas -/

theorem reportMaxNodes_eq_some {r : Report} {n : Nat} (h : reportMaxNodes r = some n) :
    ∃ t, r.tree = some t ∧ getMaxNodes t.query = n := by
  cases hr : r.tree with
  | none => simp [reportMaxNodes, hr] at h
  | some t =>
    refine ⟨t, rfl, ?_⟩
    simpa [reportMaxNodes, hr] using h

theorem treeBytes_perm {s1 s2 : List Sample} (h : s1.Perm s2) (n : Nat) :
    treeBytes s1 n = treeBytes s2 n := by
  have hs : sortSamples s1 = sortSamples s2 :=
    List.eq_of_perm_of_sorted
      ((List.perm_insertionSort sampleLE s1).trans
        (h.trans (List.perm_insertionSort sampleLE s2).symm))
      (List.sorted_insertionSort sampleLE s1) (List.sorted_insertionSort sampleLE s2)
  simp [treeBytes, hs]

theorem aggregateList_initialized (qq : Option TreeQuery) :
    ∀ (l : List Report) (m : List Sample), (∀ r ∈ l, r.tree ≠ none) →
      aggregateList ⟨true, qq, some m⟩ l = some ⟨true, qq, some (m ++ mergedSamples l)⟩ := by
  intro l
  induction l with
  | nil => intro m _; simp [aggregateList, mergedSamples]
  | cons r rest ih =>
    intro m h
    obtain ⟨t, ht⟩ : ∃ t, r.tree = some t := by
      cases hr : r.tree with
      | none => exact absurd hr (h r (List.mem_cons_self r rest))
      | some t => exact ⟨t, rfl⟩
    have hrest : ∀ x ∈ rest, x.tree ≠ none := fun x hx => h x (List.mem_cons_of_mem _ hx)
    cases hd : decodeTree t.tree with
    | none =>
      simp [aggregateList, aggregate, ht, mergeTreeBytes, hd, ih m hrest, mergedSamples,
        treeContribution]
    | some dl =>
      simp [aggregateList, aggregate, ht, mergeTreeBytes, hd, ih (m ++ dl) hrest, mergedSamples,
        treeContribution]

theorem aggregateList_cons_fresh (req : InvokeRequest) (r : Report) (t : TreeReport)
    (rest : List Report) (ht : r.tree = some t) (hrest : ∀ x ∈ rest, x.tree ≠ none) :
    aggregateList (newTreeAggregator req) (r :: rest)
      = some ⟨true, t.query, some (mergedSamples (r :: rest))⟩ := by
  cases hd : decodeTree t.tree with
  | none =>
    simpa [aggregateList, aggregate, newTreeAggregator, ht, mergeTreeBytes, hd, mergedSamples,
      treeContribution] using aggregateList_initialized t.query rest [] hrest
  | some dl =>
    simpa [aggregateList, aggregate, newTreeAggregator, ht, mergeTreeBytes, hd, mergedSamples,
      treeContribution] using aggregateList_initialized t.query rest dl hrest

theorem aggregateList_state :
    ∀ (l : List Report) (a s : treeAggregatorSt),
      a.initDone = true → (∃ m, a.tree = some m) → aggregateList a l = some s →
      s.initDone = true ∧ s.query = a.query ∧ ∃ m, s.tree = some m := by
  intro l
  induction l with
  | nil =>
    intro a s h1 h2 h3
    obtain rfl : a = s := by simpa [aggregateList] using h3
    exact ⟨h1, rfl, h2⟩
  | cons r rest ih =>
    intro a s h1 h2 h3
    obtain ⟨m, hm⟩ := h2
    cases hr : r.tree with
    | none => simp [aggregateList, aggregate, hr] at h3
    | some t =>
      have h3' : aggregateList { a with tree := some (mergeTreeBytes m t.tree).2 } rest
          = some s := by
        simpa [aggregateList, aggregate, hr, h1, hm] using h3
      obtain ⟨hi, hq, hm'⟩ := ih _ s (by simp [h1]) ⟨_, rfl⟩ h3'
      exact ⟨hi, by simpa using hq, hm'⟩

/-! ## Claim theorems -/

/-- C2: for every sequence of Reports fed to a tree aggregator, the query
parameters it captures — and that `build()` re-attaches to the final Report —
equal those of the first Report ever passed to `aggregate()`, and they never
change afterwards, no matter how many subsequent Reports carry different
parameters. -/
theorem C2_captured_query_is_first (req : InvokeRequest) (r : Report) (rest : List Report)
    (s : treeAggregatorSt)
    (h : aggregateList (newTreeAggregator req) (r :: rest) = some s) :
    ∃ t, r.tree = some t ∧ s.query = t.query ∧
      ∃ rep, build s = some rep ∧ ∃ tr, rep.tree = some tr ∧ tr.query = t.query := by
  cases hr : r.tree with
  | none =>
    exfalso
    simp [aggregateList, aggregate, hr] at h
  | some t =>
    have h' : aggregateList ⟨true, t.query, some (mergeTreeBytes [] t.tree).2⟩ rest
        = some s := by
      simpa [aggregateList, aggregate, newTreeAggregator, hr] using h
    obtain ⟨hinit, hq, m, hm⟩ :=
      aggregateList_state rest ⟨true, t.query, some (mergeTreeBytes [] t.tree).2⟩ s rfl
        ⟨_, rfl⟩ h'
    refine ⟨t, rfl, hq, ?_⟩
    refine ⟨{ tree := some { query := s.query, tree := treeBytes m (getMaxNodes s.query) } },
      by simp [build, hm], ?_⟩
    exact ⟨{ query := s.query, tree := treeBytes m (getMaxNodes s.query) }, rfl, hq⟩

/-- C2 witness: feeding a Report with a 3-node cap and then one with a 9-node
cap, the captured and rebuilt query is the first one. -/
theorem C2_captured_query_witness :
    aggregateList (newTreeAggregator { options := [] }) [reportA, reportOther] = some stateAB ∧
    (∃ t, reportA.tree = some t ∧ stateAB.query = t.query ∧
      ∃ rep, build stateAB = some rep ∧ ∃ tr, rep.tree = some tr ∧ tr.query = t.query) :=
  ⟨by decide, C2_captured_query_is_first { options := [] } reportA [reportOther] stateAB
    (by decide)⟩

/-- C3 counterexample: the claim as stated is false — two Reports carrying
different max-node counts are a permutation of one another, yet the serialized
trees built from the two orders differ, because whichever Report arrives first
determines the captured node cap used for truncation. -/
theorem C3_perm_counterexample :
    ([reportCap1, reportNoCap].Perm [reportNoCap, reportCap1]) ∧
    buildTreeBytes { options := [] } [reportCap1, reportNoCap]
      ≠ buildTreeBytes { options := [] } [reportNoCap, reportCap1] :=
  ⟨List.Perm.swap reportNoCap reportCap1 [], by decide⟩

/-- C3 (amended): for every finite multiset of tree Reports, each carrying a
tree payload and all agreeing on the max-node-count parameter, any two
permutations fed to fresh aggregators yield the same serialized tree from
`build()` (merging is order-independent). -/
theorem C3_perm_invariant_same_max_nodes (req1 req2 : InvokeRequest) (n : Nat)
    (l1 l2 : List Report) (hp : l1.Perm l2)
    (hn : ∀ r ∈ l1, reportMaxNodes r = some n) :
    buildTreeBytes req1 l1 = buildTreeBytes req2 l2 := by
  have hn2 : ∀ r ∈ l2, reportMaxNodes r = some n := fun r hr => hn r (hp.symm.subset hr)
  cases l1 with
  | nil =>
    obtain rfl : l2 = [] := hp.nil_eq.symm
    rfl
  | cons r rest =>
    cases l2 with
    | nil => exact absurd hp.symm.nil_eq (by simp)
    | cons r' rest' =>
      obtain ⟨t, ht, htn⟩ := reportMaxNodes_eq_some (hn r (List.mem_cons_self r rest))
      obtain ⟨t', ht', htn'⟩ := reportMaxNodes_eq_some (hn2 r' (List.mem_cons_self r' rest'))
      have hne1 : ∀ x ∈ r :: rest, x.tree ≠ none := by
        intro x hx
        obtain ⟨tx, htx, _⟩ := reportMaxNodes_eq_some (hn x hx)
        simp [htx]
      have hne2 : ∀ x ∈ r' :: rest', x.tree ≠ none := by
        intro x hx
        obtain ⟨tx, htx, _⟩ := reportMaxNodes_eq_some (hn2 x hx)
        simp [htx]
      have e1 := aggregateList_cons_fresh req1 r t rest ht
        (fun x hx => hne1 x (List.mem_cons_of_mem _ hx))
      have e2 := aggregateList_cons_fresh req2 r' t' rest' ht'
        (fun x hx => hne2 x (List.mem_cons_of_mem _ hx))
      have hperm : (mergedSamples (r :: rest)).Perm (mergedSamples (r' :: rest')) :=
        hp.flatMap_right treeContribution
      calc buildTreeBytes req1 (r :: rest)
          = some (treeBytes (mergedSamples (r :: rest)) n) := by
            simp [buildTreeBytes, e1, build, htn]
        _ = some (treeBytes (mergedSamples (r' :: rest')) n) := by
            rw [treeBytes_perm hperm]
        _ = buildTreeBytes req2 (r' :: rest') := by
            simp [buildTreeBytes, e2, build, htn']

/-- C3 witness: two Reports that agree on a 3-node cap, fed in either order to
fresh aggregators built from different invocation requests, serialize to the
same tree. -/
theorem C3_perm_invariant_witness :
    ([reportA, reportB].Perm [reportB, reportA]) ∧
    (∀ r ∈ [reportA, reportB], reportMaxNodes r = some 3) ∧
    buildTreeBytes { options := [] } [reportA, reportB]
      = buildTreeBytes { options := [7] } [reportB, reportA] :=
  ⟨List.Perm.swap reportB reportA [], by decide,
    C3_perm_invariant_same_max_nodes { options := [] } { options := [7] } 3
      [reportA, reportB] [reportB, reportA] (List.Perm.swap reportB reportA []) (by decide)⟩

/-- C4: whenever the row iterator terminates with a non-nil terminal error,
`queryTree` returns that error unchanged together with a nil Report. -/
theorem C4_iterator_error_propagated (q : queryContext) (query : Query) (c : Nat × Nat)
    (e : Err) (h1 : q.entriesInit = none) (h2 : q.columnsResolve = .ok c)
    (h3 : q.rowsErr = some e) :
    (queryTreeRun q query).retErr = some e ∧ (queryTreeRun q query).retVal = none := by
  simp [queryTreeRun, h1, h2, h3]

/-- C4 witness: a block whose iterator fails with error `[5]` makes `queryTree`
return exactly that error and no Report. -/
theorem C4_iterator_error_witness :
    (qcIterErr.entriesInit = none ∧ qcIterErr.columnsResolve = .ok (0, 1) ∧
      qcIterErr.rowsErr = some [5]) ∧
    (queryTreeRun qcIterErr { tree := none }).retErr = some [5] ∧
    (queryTreeRun qcIterErr { tree := none }).retVal = none :=
  ⟨⟨rfl, rfl, rfl⟩,
    C4_iterator_error_propagated qcIterErr { tree := none } (0, 1) [5] rfl rfl rfl⟩

/-- C5: on every exit path of `queryTree` reached after the symbol resolver is
created — success, iterator terminal error, and resolution error alike — the
resolver's release runs exactly once. -/
theorem C5_resolver_released_once (q : queryContext) (query : Query) (c : Nat × Nat)
    (h1 : q.entriesInit = none) (h2 : q.columnsResolve = .ok c) :
    (queryTreeRun q query).resolverReleased = 1 := by
  cases h3 : q.rowsErr with
  | some e => simp [queryTreeRun, h1, h2, h3]
  | none =>
    cases h4 : q.resolveTree q.rows with
    | error e => simp [queryTreeRun, h1, h2, h3, h4]
    | ok s => simp [queryTreeRun, h1, h2, h3, h4]

/-- C5 witness: on a block whose iterator ends in a terminal error, the
resolver is still released exactly once. -/
theorem C5_resolver_released_witness :
    (qcIterErr.entriesInit = none ∧ qcIterErr.columnsResolve = .ok (0, 1)) ∧
    (queryTreeRun qcIterErr { tree := none }).resolverReleased = 1 :=
  ⟨⟨rfl, rfl⟩, C5_resolver_released_once qcIterErr { tree := none } (0, 1) rfl rfl⟩

/-- C6: when `queryTree` succeeds, the returned Report contains exactly an echo
of the original query's tree parameters and the resolved tree serialized with
truncation to the query's requested maximum node count. -/
theorem C6_success_report_contents (q : queryContext) (query : Query) (c : Nat × Nat)
    (samples : List Sample) (h1 : q.entriesInit = none) (h2 : q.columnsResolve = .ok c)
    (h3 : q.rowsErr = none) (h4 : q.resolveTree q.rows = .ok samples) :
    (queryTreeRun q query).retVal
      = some { tree := some { query := query.tree,
                              tree := treeBytes samples (getMaxNodes query.tree) } } ∧
    (queryTreeRun q query).retErr = none := by
  simp [queryTreeRun, h1, h2, h3, h4]

/-- C6 witness: the successful run over `qcOk` echoes the 2-node-cap query and
serializes the single resolved sample truncated to that cap. -/
theorem C6_success_report_witness :
    (qcOk.entriesInit = none ∧ qcOk.columnsResolve = .ok (0, 1) ∧ qcOk.rowsErr = none ∧
      qcOk.resolveTree qcOk.rows = .ok [(1, 2)]) ∧
    (queryTreeRun qcOk { tree := some { maxNodes := 2, labelSelector := [] } }).retVal
      = some { tree := some { query := some { maxNodes := 2, labelSelector := [] },
                              tree := treeBytes [(1, 2)]
                                (getMaxNodes (some { maxNodes := 2, labelSelector := [] })) } } ∧
    (queryTreeRun qcOk { tree := some { maxNodes := 2, labelSelector := [] } }).retErr = none :=
  ⟨⟨rfl, rfl, rfl, rfl⟩,
    C6_success_report_contents qcOk { tree := some { maxNodes := 2, labelSelector := [] } }
      (0, 1) [(1, 2)] rfl rfl rfl rfl⟩

/-- C7: contrary to the claim, a failure while releasing the row iterator IS
silently dropped from the returned error.  On `qcCloseFail` the body succeeds,
closing the entry iterator fails with `[9]`, the deferred `CloseWithErrCapture`
records it in the local `err` variable — but since `queryTree`'s result
parameters are unnamed, the returned error stays nil and the Report is
returned as if nothing failed. -/
theorem C7_close_error_dropped :
    qcCloseFail.entriesCloseErr = some [9] ∧
    (queryTreeRun qcCloseFail { tree := none }).localErrFinal = some [9] ∧
    (queryTreeRun qcCloseFail { tree := none }).retErr = none ∧
    (queryTreeRun qcCloseFail { tree := none }).retVal ≠ none := by
  refine ⟨rfl, ?_, ?_, ?_⟩ <;> decide

/-- C8 counterexample: the claim as stated is false — a structurally
incompatible Report (wrong report kind, i.e. no tree payload) does not make
`aggregate()` fail with a decode/merge error: the code dereferences the nil
`*TreeReport` and panics (modelled by `none`). -/
theorem C8_wrong_kind_counterexample :
    aggregate (newTreeAggregator { options := [] }) { tree := none } = none := rfl

/-- C8 (amended): for an aggregator already initialized by a prior merge, a
Report carrying a tree payload whose bytes cannot be parsed makes `aggregate()`
fail with a merge error — not a crash — and leaves the aggregator state
(captured query parameters and accumulator) exactly unchanged and usable; a
Report lacking the tree payload altogether (wrong report kind) instead panics. -/
theorem C8_merge_error_preserves_state (a : treeAggregatorSt) (m : List Sample) (r : Report)
    (t : TreeReport) (h1 : a.initDone = true) (h2 : a.tree = some m)
    (h3 : r.tree = some t) (h4 : decodeTree t.tree = none) :
    ∃ e, aggregate a r = some (some e, a) := by
  cases a with
  | mk d q tr =>
    cases h1
    cases h2
    refine ⟨0, ?_⟩
    simp [aggregate, h3, mergeTreeBytes, h4]

/-- C8 witness: an initialized aggregator fed a Report with the malformed
payload `[7]` (odd length) reports a merge error and keeps its state. -/
theorem C8_merge_error_witness :
    (decodeTree [7] = none) ∧
    ∃ e, aggregate ⟨true, some ⟨2, []⟩, some [(1, 1)]⟩
        { tree := some { query := none, tree := [7] } }
      = some (some e, ⟨true, some ⟨2, []⟩, some [(1, 1)]⟩) :=
  ⟨rfl, C8_merge_error_preserves_state ⟨true, some ⟨2, []⟩, some [(1, 1)]⟩ [(1, 1)]
    { tree := some { query := none, tree := [7] } } { query := none, tree := [7] }
    rfl rfl rfl rfl⟩

/-- C9: running the tree Local Query Executor twice over the same block and
query, with no intervening mutation of the block, produces identical run logs
(in particular byte-identical Reports); the first run leaves the block context
untouched. -/
theorem C9_deterministic_reruns (w : World) (query : Query) :
    (queryTreeW (queryTreeW w query).2 query).1 = (queryTreeW w query).1 ∧
    (queryTreeW w query).2.ctx = w.ctx :=
  ⟨rfl, rfl⟩

/-- C10: the tree aggregator factory ignores its InvokeRequest argument
entirely — the aggregators built from any two requests are equal, and the
final Report produced by `build()` after any sequence of `aggregate()` calls
depends only on the Reports fed. -/
theorem C10_invoke_request_ignored (req1 req2 : InvokeRequest) (l : List Report) :
    newTreeAggregator req1 = newTreeAggregator req2 ∧
    (aggregateList (newTreeAggregator req1) l).bind build
      = (aggregateList (newTreeAggregator req2) l).bind build :=
  ⟨rfl, rfl⟩

end QueryBackend
